import Mathlib

/-!
Shallow embedding of the markdown-to-plain-text conversion core
(`src/markdown-converter.ts`): data model (`CustomRule`,
`MarkdownConversionSettings`, the marked token tree), the token renderer,
the Unicode glyph maps, and the custom regex-rule stage.

External collaborators are modelled as parameters:
* the markdown lexer (`marked`'s `Lexer.lex`) is a parameter
  `lex : String → List Token`;
* the JavaScript `RegExp` engine is a parameter of type `RegexEngine`:
  compiling a pattern either fails (`none`, modelling the `RegExp`
  constructor throwing, caught by the `try`/`catch` in
  `applyCustomRules`) or yields a total global-replace function.
Strings are Lean strings, i.e. sequences of Unicode scalar values, so all
per-character iteration below is per code point, as JavaScript's string
spread `[...text]` and `codePointAt` are.
-/

-- ===========================================================================
-- Data model
-- ===========================================================================

/-- Three-way text-decoration mode (`TextDecorationMode` in `types.ts`):
`keep` markdown markers, `remove` them, or substitute `unicode` glyphs. -/
inductive TextDecorationMode where
  | keep
  | remove
  | unicode
deriving DecidableEq

/-- User-defined regex replacement rule (`CustomRule` in `types.ts`).
`applyBeforeConversion` is an optional boolean field in TypeScript, hence
`Option Bool` here; the converter tests it with strict equality to `true`. -/
structure CustomRule where
  name : String
  pattern : String
  replacement : String
  caseInsensitive : Bool
  enabled : Bool
  applyBeforeConversion : Option Bool
deriving DecidableEq

/-- Conversion settings (`MarkdownConversionSettings` in `types.ts`),
restricted to the fields the conversion core reads. -/
structure MarkdownConversionSettings where
  enableMarkdownConversion : Bool
  enableHeadings : Bool
  heading1Prefix : String
  heading2Prefix : String
  heading3Prefix : String
  heading4Prefix : String
  enableBullet : Bool
  bulletChar : String
  enableCheckbox : Bool
  checkboxChecked : String
  checkboxUnchecked : String
  boldMode : TextDecorationMode
  italicMode : TextDecorationMode
  strikethroughMode : TextDecorationMode
  enableHorizontalRule : Bool
  horizontalRule : String
  enableBlockquote : Bool
  blockquotePrefix : String
  enableCodeBlock : Bool
  codeBlockPrefix : String
  enableInlineCode : Bool
  inlineCodeWrapper : String
  customRules : List CustomRule

mutual

/-- Markdown token tree as produced by the external `marked` lexer,
restricted to the fields read by `renderToken`.  The `text` token's child
list is optional in `marked` (`token.tokens ? … : token.text`; note an
empty array is truthy in JavaScript, hence `some []` renders its children,
i.e. the empty string).  The catch-all `other` carries the optional `raw`
source field (`"raw" in token ? token.raw : ""`). -/
inductive Token where
  | heading (depth : Nat) (tokens : List Token)
  | paragraph (tokens : List Token)
  | text (sub : Option (List Token)) (txt : String)
  | strong (tokens : List Token)
  | em (tokens : List Token)
  | del (tokens : List Token)
  | codespan (txt : String)
  | code (txt : String)
  | blockquote (tokens : List Token)
  | list (ordered : Bool) (items : List ListItem)
  | link (tokens : List Token)
  | image (txt : String)
  | hr
  | br
  | space
  | checkbox
  | html (raw : String)
  | escape (txt : String)
  | other (raw : Option String)

/-- List item (`Tokens.ListItem` in `marked`): the `task` flag, the
`checked` state, and the child token sequence (which may interleave nested
`list` tokens with content tokens). -/
inductive ListItem where
  | mk (task : Bool) (checked : Bool) (tokens : List Token)

end

/-- Task flag of a list item. -/
def ListItem.task : ListItem → Bool
  | .mk t _ _ => t

/-- Checked flag of a list item. -/
def ListItem.checked : ListItem → Bool
  | .mk _ c _ => c

/-- Child tokens of a list item. -/
def ListItem.tokens : ListItem → List Token
  | .mk _ _ ts => ts

/-- Whether a token is a nested `list` token (`t.type === "list"`). -/
def Token.isList : Token → Bool
  | .list _ _ => true
  | _ => false

/-- Whether a token is a `checkbox` token (`t.type === "checkbox"`). -/
def Token.isCheckbox : Token → Bool
  | .checkbox => true
  | _ => false

/-- Render context threaded through the recursive descent: the active
settings plus the current list-nesting depth. -/
structure RenderContext where
  settings : MarkdownConversionSettings
  listDepth : Nat

-- ===========================================================================
-- Unicode text conversion
-- ===========================================================================

/-- Per-code-point map of `convertToBoldUnicode`: `A`-`Z` to the
mathematical bold capitals at U+1D400, `a`-`z` to U+1D41A, `0`-`9` to
U+1D7CE, identity elsewhere. -/
def boldCharMap (char : Char) : Char :=
  let code := char.toNat
  if 65 ≤ code ∧ code ≤ 90 then Char.ofNat (code - 65 + 0x1D400)
  else if 97 ≤ code ∧ code ≤ 122 then Char.ofNat (code - 97 + 0x1D41A)
  else if 48 ≤ code ∧ code ≤ 57 then Char.ofNat (code - 48 + 0x1D7CE)
  else char

/-- Convert ASCII text to mathematical bold Unicode characters
(`convertToBoldUnicode`): the per-code-point map applied over the string. -/
def convertToBoldUnicode (text : String) : String :=
  String.mk (text.data.map boldCharMap)

/-- Per-code-point map of `convertToItalicUnicode`: `A`-`Z` to the
mathematical italic capitals at U+1D434, `a`-`z` to U+1D44E, identity
elsewhere (digits included: the source has no digit branch). -/
def italicCharMap (char : Char) : Char :=
  let code := char.toNat
  if 65 ≤ code ∧ code ≤ 90 then Char.ofNat (code - 65 + 0x1D434)
  else if 97 ≤ code ∧ code ≤ 122 then Char.ofNat (code - 97 + 0x1D44E)
  else char

/-- Convert ASCII text to mathematical italic Unicode characters
(`convertToItalicUnicode`). -/
def convertToItalicUnicode (text : String) : String :=
  String.mk (text.data.map italicCharMap)

/-- Add a combining long stroke overlay (U+0336) after each character
(`convertToStrikethrough`). -/
def convertToStrikethrough (text : String) : String :=
  String.join (text.data.map (fun char => String.mk [char, Char.ofNat 0x336]))

-- ===========================================================================
-- Custom rules processing
-- ===========================================================================

/-- One step of global literal replacement: scan left to right on `fuel`
characters; on a pattern match emit the replacement and continue after the
matched segment, otherwise emit the character and advance by one. -/
def replaceAllAux (pattern repl : List Char) : Nat → List Char → List Char
  | _, [] => []
  | 0, rest => rest
  | fuel + 1, c :: cs =>
    if pattern.isPrefixOf (c :: cs) then
      repl ++ replaceAllAux pattern repl fuel (List.drop (pattern.length - 1) cs)
    else
      c :: replaceAllAux pattern repl fuel cs

/-- Global replacement of a literal pattern, modelling JavaScript's
`str.replace(/literal/g, repl)`: every non-overlapping occurrence, scanned
left to right, replaced in one pass (the replacement text is not
rescanned). -/
def replaceAll (s pattern repl : String) : String :=
  String.mk (replaceAllAux pattern.data repl.data s.data.length s.data)

/-- Convert escape sequences in replacement strings (`unescapeString`):
four sequential global replaces, `\n` then `\t` then `\r` then `\\`, each
a two-character literal pattern. -/
def unescapeString (str : String) : String :=
  replaceAll (replaceAll (replaceAll (replaceAll str "\\n" "\n") "\\t" "\t") "\\r" "\r") "\\\\" "\\"

/-- Model of the JavaScript `RegExp` engine: from the pattern source and
the `caseInsensitive` flag (the `g`/`m` flags are always set by the
converter), either `none` — the `RegExp` constructor throws on a malformed
pattern — or a total function taking the subject text and the (already
unescaped) replacement to the substituted text. -/
def RegexEngine : Type :=
  String → Bool → Option (String → String → String)

/-- Body of the `for` loop of `applyCustomRules`: skip a disabled rule;
otherwise compile the pattern and substitute, and on a compile failure
(the `catch` branch) return the accumulator unchanged. -/
def applyCustomRule (engine : RegexEngine) (result : String) (rule : CustomRule) : String :=
  if !rule.enabled then result
  else
    match engine rule.pattern rule.caseInsensitive with
    | none => result
    | some substitute => substitute result (unescapeString rule.replacement)

/-- Apply user-defined regex replacement rules (`applyCustomRules`): fold
the rules left to right over the accumulator, starting from `text`. -/
def applyCustomRules (engine : RegexEngine) (text : String) (rules : List CustomRule) : String :=
  rules.foldl (applyCustomRule engine) text

-- ===========================================================================
-- Non-recursive token renderers
-- ===========================================================================

/-- Marker-selection algorithm for list items (`getBullet`); `none` models
the `null` no-marker result. -/
def getBullet (item : ListItem) (settings : MarkdownConversionSettings)
    (ordered : Bool) (index : Nat) : Option String :=
  if item.task then
    if !settings.enableCheckbox then none
    else some (if item.checked then settings.checkboxChecked else settings.checkboxUnchecked)
  else if ordered then
    some (toString (index + 1) ++ ".")
  else if !settings.enableBullet then none
  else some settings.bulletChar

/-- Indentation for a list line: two spaces per nesting level
(`"  ".repeat(listDepth)`). -/
def indentFor (listDepth : Nat) : String :=
  String.join (List.replicate listDepth "  ")

/-- Heading prefix lookup (`prefixes[token.depth] || ""`): the configured
string for levels 1-4, the empty string for every other level. -/
def headingPrefixFor (settings : MarkdownConversionSettings) : Nat → String
  | 1 => settings.heading1Prefix
  | 2 => settings.heading2Prefix
  | 3 => settings.heading3Prefix
  | 4 => settings.heading4Prefix
  | _ => ""

/-- Inline code (`renderCodespan`): wrap the literal text when
`enableInlineCode`, else pass it through. -/
def renderCodespan (ctx : RenderContext) (txt : String) : String :=
  if !ctx.settings.enableInlineCode then txt
  else ctx.settings.inlineCodeWrapper ++ txt ++ ctx.settings.inlineCodeWrapper

/-- Code block (`renderCode`): prefix every line with `codeBlockPrefix`
when `enableCodeBlock`, else the literal text; a trailing newline either
way. -/
def renderCode (ctx : RenderContext) (txt : String) : String :=
  if !ctx.settings.enableCodeBlock then txt ++ "\n"
  else
    String.intercalate "\n"
      ((txt.splitOn "\n").map (fun line => ctx.settings.codeBlockPrefix ++ line)) ++ "\n"

-- ===========================================================================
-- Recursive token renderers
-- ===========================================================================

mutual

/-- Render a token sequence (`renderTokens`): the concatenation of the
renderings of its tokens, in order. -/
def renderTokens (ctx : RenderContext) : List Token → String
  | [] => ""
  | t :: ts => renderToken ctx t ++ renderTokens ctx ts
termination_by ts => (sizeOf ts, 0)

/-- Render one token (`renderToken`): dispatch on the token type. -/
def renderToken (ctx : RenderContext) : Token → String
  | .heading depth tokens => renderHeading ctx depth tokens
  | .paragraph tokens => renderParagraph ctx tokens
  | .text sub txt => renderText ctx sub txt
  | .strong tokens => renderStrong ctx tokens
  | .em tokens => renderEm ctx tokens
  | .del tokens => renderDel ctx tokens
  | .codespan txt => renderCodespan ctx txt
  | .code txt => renderCode ctx txt
  | .blockquote tokens => renderBlockquote ctx tokens
  | .list ordered items => renderList ctx ordered items
  | .link tokens => renderLink ctx tokens
  | .image txt => txt
  | .hr =>
    if ctx.settings.enableHorizontalRule then ctx.settings.horizontalRule ++ "\n" else ""
  | .br => "\n"
  | .space => "\n"
  | .checkbox => ""
  | .html raw => raw
  | .escape txt => txt
  | .other raw => raw.getD ""
termination_by t => (sizeOf t, 1)

/-- Render a heading (`renderHeading`): the rendered children plus a
newline when headings are disabled; otherwise the level's prefix, a space,
the rendered children, and a newline. -/
def renderHeading (ctx : RenderContext) (depth : Nat) (tokens : List Token) : String :=
  let text := renderTokens ctx tokens
  if !ctx.settings.enableHeadings then text ++ "\n"
  else headingPrefixFor ctx.settings depth ++ " " ++ text ++ "\n"
termination_by (sizeOf tokens, 2)

/-- Render a paragraph (`renderParagraph`): children plus a newline. -/
def renderParagraph (ctx : RenderContext) (tokens : List Token) : String :=
  renderTokens ctx tokens ++ "\n"
termination_by (sizeOf tokens, 2)

/-- Render a text token (`renderText`): recurse into the child tokens when
present, else the literal text. -/
def renderText (ctx : RenderContext) (sub : Option (List Token)) (txt : String) : String :=
  match sub with
  | some tokens => renderTokens ctx tokens
  | none => txt
termination_by (sizeOf sub, 2)

/-- Render bold (`renderStrong`): three-way dispatch on `boldMode`. -/
def renderStrong (ctx : RenderContext) (tokens : List Token) : String :=
  let text := renderTokens ctx tokens
  match ctx.settings.boldMode with
  | .keep => "**" ++ text ++ "**"
  | .unicode => convertToBoldUnicode text
  | .remove => text
termination_by (sizeOf tokens, 2)

/-- Render italic (`renderEm`): three-way dispatch on `italicMode`. -/
def renderEm (ctx : RenderContext) (tokens : List Token) : String :=
  let text := renderTokens ctx tokens
  match ctx.settings.italicMode with
  | .keep => "*" ++ text ++ "*"
  | .unicode => convertToItalicUnicode text
  | .remove => text
termination_by (sizeOf tokens, 2)

/-- Render strikethrough (`renderDel`): three-way dispatch on
`strikethroughMode`. -/
def renderDel (ctx : RenderContext) (tokens : List Token) : String :=
  let text := renderTokens ctx tokens
  match ctx.settings.strikethroughMode with
  | .keep => "~~" ++ text ++ "~~"
  | .unicode => convertToStrikethrough text
  | .remove => text
termination_by (sizeOf tokens, 2)

/-- Render a blockquote (`renderBlockquote`): the rendered children
unchanged when disabled; otherwise split on newline, prefix every
non-empty line (the JavaScript conditional `line ? prefix + line : line`
leaves the empty string, which is falsy, unprefixed), rejoin. -/
def renderBlockquote (ctx : RenderContext) (tokens : List Token) : String :=
  let content := renderTokens ctx tokens
  if !ctx.settings.enableBlockquote then content
  else
    String.intercalate "\n"
      ((content.splitOn "\n").map
        (fun line => if line = "" then line else ctx.settings.blockquotePrefix ++ line))
termination_by (sizeOf tokens, 2)

/-- Render a list (`renderList`): each item in order, with its zero-based
position. -/
def renderList (ctx : RenderContext) (ordered : Bool) (items : List ListItem) : String :=
  renderItemsFrom ctx ordered 0 items
termination_by (sizeOf items, 2)

/-- The `items.map((item, index) => renderListItem(…)).join("")` traversal
of `renderList`, with the running zero-based index made explicit. -/
def renderItemsFrom (ctx : RenderContext) (ordered : Bool) (index : Nat) :
    List ListItem → String
  | [] => ""
  | item :: items =>
    renderListItem ctx ordered index item ++ renderItemsFrom ctx ordered (index + 1) items
termination_by items => (sizeOf items, 1)

/-- Render a list item (`renderListItem`): content tokens (non-list,
non-checkbox) rendered and trimmed; nested list tokens rendered after
them at `listDepth + 1`; the line is the marker from `getBullet` —
indent, marker, space, content, newline — or, with no marker, the bare
content and newline.  `renderContentTokens` and `renderNestedLists` are
single-pass structural forms of the source's
`tokens.filter(…)`/`map(…).join("")` pipelines; the lemmas
`renderContentTokens_eq_filter` and `renderNestedLists_eq_filter` below
prove them equal to those filter-based forms. -/
def renderListItem (ctx : RenderContext) (ordered : Bool) (index : Nat) :
    ListItem → String
  | .mk task checked tokens =>
    let content := (renderContentTokens ctx tokens).trim
    let nested := renderNestedLists ⟨ctx.settings, ctx.listDepth + 1⟩ tokens
    match getBullet (.mk task checked tokens) ctx.settings ordered index with
    | none => content ++ "\n" ++ nested
    | some bullet => indentFor ctx.listDepth ++ bullet ++ " " ++ content ++ "\n" ++ nested
termination_by item => (sizeOf item, 0)

/-- Render the content tokens of a list item: every token that is neither
a nested `list` nor a `checkbox`, in order. -/
def renderContentTokens (ctx : RenderContext) : List Token → String
  | [] => ""
  | t :: ts =>
    (if t.isList || t.isCheckbox then "" else renderToken ctx t) ++ renderContentTokens ctx ts
termination_by ts => (sizeOf ts, 2)

/-- Render the nested `list` tokens of a list item, in order, skipping all
other tokens. -/
def renderNestedLists (ctx : RenderContext) : List Token → String
  | [] => ""
  | .list ordered items :: ts => renderList ctx ordered items ++ renderNestedLists ctx ts
  | _ :: ts => renderNestedLists ctx ts
termination_by ts => (sizeOf ts, 2)

/-- Render a link (`renderLink`): only the display-text children. -/
def renderLink (ctx : RenderContext) (tokens : List Token) : String :=
  renderTokens ctx tokens
termination_by (sizeOf tokens, 2)

end

-- ===========================================================================
-- Entry point
-- ===========================================================================

/-- Convert markdown text to plain text (`convertMarkdownToPlainText`):
if the master toggle is off, return the input; otherwise partition the
custom rules on `applyBeforeConversion === true`, apply the before rules,
lex, render with a fresh context at list depth 0, and apply the after
rules. -/
def convertMarkdownToPlainText (engine : RegexEngine) (lex : String → List Token)
    (markdown : String) (settings : MarkdownConversionSettings) : String :=
  if !settings.enableMarkdownConversion then markdown
  else
    let beforeRules := settings.customRules.filter
      (fun r => r.applyBeforeConversion == some true)
    let afterRules := settings.customRules.filter
      (fun r => !(r.applyBeforeConversion == some true))
    let text := applyCustomRules engine markdown beforeRules
    let tokens := lex text
    let ctx : RenderContext := ⟨settings, 0⟩
    let result := renderTokens ctx tokens
    applyCustomRules engine result afterRules

-- ===========================================================================
-- Concrete instances for witnesses
-- ===========================================================================

/-- Characters that can make a pattern non-literal or malformed; the
literal model engine below refuses any pattern containing one. -/
def regexSpecialChars : List Char :=
  ['\\', '(', ')', '[', ']', '^', '$', '.', '|', '?', '*', '+']

/-- Concrete `RegexEngine` instance for witnesses: a pattern with no
special character compiles to global literal replacement; any other
pattern — e.g. the unbalanced character class opened by a lone bracket —
fails to compile, as the JavaScript `RegExp` constructor does. -/
def litRegexEngine : RegexEngine := fun pattern _ =>
  if pattern.data.any (fun c => regexSpecialChars.contains c) then none
  else some (fun input repl => replaceAll input pattern repl)

/-- Enabled literal rule rewriting `a` to `b`. -/
def ruleAtoB : CustomRule := ⟨"a to b", "a", "b", false, true, none⟩

/-- Enabled literal rule rewriting `b` to `c`. -/
def ruleBtoC : CustomRule := ⟨"b to c", "b", "c", false, true, none⟩

/-- Enabled rule whose pattern fails to compile (unbalanced character
class). -/
def badRule : CustomRule := ⟨"bad", "[a", "x", false, true, none⟩

/-- Concrete settings record used by witnesses. -/
def sampleSettings : MarkdownConversionSettings where
  enableMarkdownConversion := true
  enableHeadings := true
  heading1Prefix := "▌"
  heading2Prefix := "▍"
  heading3Prefix := "▎"
  heading4Prefix := "▏"
  enableBullet := true
  bulletChar := "•"
  enableCheckbox := true
  checkboxChecked := "☑"
  checkboxUnchecked := "☐"
  boldMode := .unicode
  italicMode := .unicode
  strikethroughMode := .unicode
  enableHorizontalRule := true
  horizontalRule := "────"
  enableBlockquote := true
  blockquotePrefix := "│ "
  enableCodeBlock := true
  codeBlockPrefix := "  "
  enableInlineCode := true
  inlineCodeWrapper := "`"
  customRules := [ruleAtoB, ruleBtoC]

/-- Concrete render context at list depth 0. -/
def sampleCtx : RenderContext := ⟨sampleSettings, 0⟩

/-- Sample settings with the master toggle off and a before-flagged rule,
for the disabled-toggle witness. -/
def sampleSettingsOff : MarkdownConversionSettings :=
  { sampleSettings with
    enableMarkdownConversion := false
    customRules := [⟨"pre", "a", "b", false, true, some true⟩] }

-- ===========================================================================
-- Supporting lemmas
-- ===========================================================================

/-- The single-pass `renderContentTokens` equals rendering the source's
filtered token list: first drop nested `list` tokens, then drop `checkbox`
tokens, then render. -/
theorem renderContentTokens_eq_filter (ctx : RenderContext) (ts : List Token) :
    renderContentTokens ctx ts =
      renderTokens ctx
        ((ts.filter (fun t => !t.isList)).filter (fun t => !t.isCheckbox)) := by
  induction ts with
  | nil => simp [renderContentTokens, renderTokens]
  | cons t ts ih =>
    cases hl : t.isList with
    | true =>
      have hc : t.isCheckbox = false := by
        cases t <;> simp_all [Token.isList, Token.isCheckbox]
      simp [renderContentTokens, List.filter_cons, hl, hc, ih]
    | false =>
      cases hc : t.isCheckbox with
      | true => simp [renderContentTokens, List.filter_cons, hl, hc, ih]
      | false => simp [renderContentTokens, List.filter_cons, hl, hc, ih, renderTokens]

/-- String join of the empty list is the empty string. -/
theorem string_join_nil : String.join ([] : List String) = "" := rfl

/-- String join splits off the head as an append. -/
theorem string_join_cons (s : String) (l : List String) :
    String.join (s :: l) = s ++ String.join l := by
  apply String.ext
  simp [String.join_eq, String.data_append]

/-- The single-pass `renderNestedLists` equals the source's
`filter(t.type === "list")` followed by rendering each nested list and
joining. -/
theorem renderNestedLists_eq_filter (ctx : RenderContext) (ts : List Token) :
    renderNestedLists ctx ts =
      String.join ((ts.filter Token.isList).map
        (fun t =>
          match t with
          | .list ordered items => renderList ctx ordered items
          | _ => "")) := by
  induction ts with
  | nil => simp [renderNestedLists, string_join_nil]
  | cons t ts ih =>
    cases t <;>
      simp [renderNestedLists, List.filter_cons, Token.isList, ih, string_join_nil,
        string_join_cons]

-- ===========================================================================
-- Claims
-- ===========================================================================

/-- C1: with the master toggle on, `convertMarkdownToPlainText` first
applies exactly the rules whose `applyBeforeConversion` is strictly `true`
to the raw markdown, then lexes and renders with a fresh context at list
depth 0, then applies all remaining rules to the rendered string; within
each stage the rules fold left-to-right in array order (the output of an
earlier rule is the next rule's input), and a disabled rule leaves the
accumulator unchanged, so only enabled rules act. -/
theorem convert_pipeline_stages (engine : RegexEngine) (lex : String → List Token)
    (markdown : String) (settings : MarkdownConversionSettings)
    (t : String) (r : CustomRule) (rs : List CustomRule)
    (h : settings.enableMarkdownConversion = true) :
    convertMarkdownToPlainText engine lex markdown settings =
      applyCustomRules engine
        (renderTokens ⟨settings, 0⟩
          (lex (applyCustomRules engine markdown
            (settings.customRules.filter (fun x => x.applyBeforeConversion == some true)))))
        (settings.customRules.filter (fun x => !(x.applyBeforeConversion == some true)))
    ∧ applyCustomRules engine t (r :: rs) =
        applyCustomRules engine (applyCustomRule engine t r) rs
    ∧ (r.enabled = false → applyCustomRule engine t r = t) := by
  refine ⟨?_, ?_, ?_⟩
  · simp [convertMarkdownToPlainText, h]
  · simp [applyCustomRules]
  · intro he
    simp [applyCustomRule, he]

/-- C1 witness: the pipeline equation, the fold step, and the
disabled-rule skip instantiated at a concrete engine, lexer, input and
settings record whose master toggle is on. -/
theorem convert_pipeline_stages_witness :
    sampleSettings.enableMarkdownConversion = true ∧
    (convertMarkdownToPlainText litRegexEngine (fun _ => []) "aaa" sampleSettings =
      applyCustomRules litRegexEngine
        (renderTokens ⟨sampleSettings, 0⟩
          ((fun _ => ([] : List Token)) (applyCustomRules litRegexEngine "aaa"
            (sampleSettings.customRules.filter
              (fun x => x.applyBeforeConversion == some true)))))
        (sampleSettings.customRules.filter
          (fun x => !(x.applyBeforeConversion == some true)))
    ∧ applyCustomRules litRegexEngine "aaa" (ruleAtoB :: [ruleBtoC]) =
        applyCustomRules litRegexEngine
          (applyCustomRule litRegexEngine "aaa" ruleAtoB) [ruleBtoC]
    ∧ (ruleAtoB.enabled = false → applyCustomRule litRegexEngine "aaa" ruleAtoB = "aaa")) :=
  ⟨rfl, convert_pipeline_stages litRegexEngine (fun _ => []) "aaa" sampleSettings
    "aaa" ruleAtoB [ruleBtoC] rfl⟩

/-- Rule-order sensitivity, concretely: the rules `a`-to-`b` then
`b`-to-`c` applied to `aaa` give `ccc`, while the reverse order gives
`bbb` — the fold is left-to-right over the array. -/
theorem applyCustomRules_order_sensitivity :
    applyCustomRules litRegexEngine "aaa" [ruleAtoB, ruleBtoC] = "ccc" ∧
    applyCustomRules litRegexEngine "aaa" [ruleBtoC, ruleAtoB] = "bbb" := by
  constructor <;> rfl

/-- C2: with the master toggle off, `convertMarkdownToPlainText` returns
the input unchanged — no before rule, no after rule and no renderer
transformation is applied, whatever the other fields and the rule list. -/
theorem convert_disabled_master_toggle (engine : RegexEngine) (lex : String → List Token)
    (x : String) (settings : MarkdownConversionSettings)
    (h : settings.enableMarkdownConversion = false) :
    convertMarkdownToPlainText engine lex x settings = x := by
  simp [convertMarkdownToPlainText, h]

/-- C2 witness: a settings record with the toggle off and an enabled
before-flagged rule whose pattern occurs in the input; the input is still
returned untouched. -/
theorem convert_disabled_master_toggle_witness :
    sampleSettingsOff.enableMarkdownConversion = false ∧
    convertMarkdownToPlainText litRegexEngine (fun _ => []) "# aaa" sampleSettingsOff = "# aaa" :=
  ⟨rfl, convert_disabled_master_toggle litRegexEngine (fun _ => []) "# aaa"
    sampleSettingsOff rfl⟩

/-- C3: `applyCustomRules` is a total function (the embedding returns a
string on every input — the `try`/`catch` of the source confines the
`RegExp` constructor's failure); when a rule's pattern fails to compile,
that rule leaves the accumulator exactly unchanged and the remaining rules
are still applied. -/
theorem applyCustomRules_compile_failure_skips (engine : RegexEngine) (text : String)
    (r : CustomRule) (rs : List CustomRule)
    (h : engine r.pattern r.caseInsensitive = none) :
    applyCustomRule engine text r = text ∧
    applyCustomRules engine text (r :: rs) = applyCustomRules engine text rs := by
  have hstep : applyCustomRule engine text r = text := by
    cases he : r.enabled <;> simp [applyCustomRule, he, h]
  exact ⟨hstep, by simp [applyCustomRules, hstep]⟩

/-- C3 witness: the rule with the unbalanced character class `[a` fails to
compile in the concrete engine, leaves `aaa` unchanged, and the following
rule still rewrites it to `bbb`. -/
theorem applyCustomRules_compile_failure_skips_witness :
    litRegexEngine badRule.pattern badRule.caseInsensitive = none ∧
    (applyCustomRule litRegexEngine "aaa" badRule = "aaa" ∧
      applyCustomRules litRegexEngine "aaa" (badRule :: [ruleAtoB]) =
        applyCustomRules litRegexEngine "aaa" [ruleAtoB]) ∧
    applyCustomRules litRegexEngine "aaa" (badRule :: [ruleAtoB]) = "bbb" :=
  ⟨rfl, applyCustomRules_compile_failure_skips litRegexEngine "aaa" badRule [ruleAtoB] rfl,
    by rfl⟩

/-- C4: the marker for a list item is: for a task item, the checked or
unchecked checkbox symbol, or no marker at all when checkboxes are
disabled; else, for an ordered list, the unconditional numeric marker from
the item's zero-based index plus one; else the bullet character when
bullets are enabled and no marker otherwise — a single `Option` result, so
exactly one marker policy applies per item, and a task item never gets
both a bullet and a checkbox.  Moreover the index is local to each list:
`renderList` numbers its items from zero at every nesting depth. -/
theorem getBullet_marker_policy (item : ListItem) (settings : MarkdownConversionSettings)
    (ordered : Bool) (index : Nat) (ctx : RenderContext) (it : ListItem)
    (its : List ListItem) :
    getBullet item settings ordered index =
      (if item.task then
        if settings.enableCheckbox then
          some (if item.checked then settings.checkboxChecked else settings.checkboxUnchecked)
        else none
      else if ordered then some (toString (index + 1) ++ ".")
      else if settings.enableBullet then some settings.bulletChar else none)
    ∧ renderList ctx ordered (it :: its) =
        renderListItem ctx ordered 0 it ++ renderItemsFrom ctx ordered 1 its := by
  constructor
  · cases ht : item.task <;> cases hc : settings.enableCheckbox <;>
      cases hb : settings.enableBullet <;> cases ordered <;>
      simp [getBullet, ht, hc, hb]
  · simp [renderList, renderItemsFrom]

/-- C5: a list item renders all non-list content tokens — with checkbox
tokens removed and the result trimmed — before all nested-list child
tokens, whatever their original interleaving; nested lists render in a
child context with `listDepth + 1`; with a marker the line is two spaces
per nesting level, the marker, one space, the trimmed content and a
newline, and with no marker it is the trimmed content plus newline with no
indentation prefix, each followed by the nested output. -/
theorem renderListItem_content_before_nested (ctx : RenderContext) (ordered : Bool)
    (index : Nat) (item : ListItem) :
    renderListItem ctx ordered index item =
      (let contentTokens := item.tokens.filter (fun t => !t.isList)
       let filteredContent := contentTokens.filter (fun t => !t.isCheckbox)
       let content := (renderTokens ctx filteredContent).trim
       let nested := String.join (((item.tokens.filter Token.isList).map
         (fun t =>
           match t with
           | .list o items => renderList ⟨ctx.settings, ctx.listDepth + 1⟩ o items
           | _ => "")))
       match getBullet item ctx.settings ordered index with
       | none => content ++ "\n" ++ nested
       | some bullet =>
         String.join (List.replicate ctx.listDepth "  ") ++ bullet ++ " " ++
           content ++ "\n" ++ nested) := by
  cases item with
  | mk task checked tokens =>
    have hc := renderContentTokens_eq_filter ctx tokens
    have hn := renderNestedLists_eq_filter ⟨ctx.settings, ctx.listDepth + 1⟩ tokens
    simp only [renderListItem, ListItem.tokens, hc, hn, indentFor]

/-- C6: the three Unicode conversions are per-code-point: the bold map
sends `A`-`Z` to U+1D400.., `a`-`z` to U+1D41A.., `0`-`9` to U+1D7CE..
and is the identity on every other code point; the italic map sends
`A`-`Z` to U+1D434.., `a`-`z` to U+1D44E.. and is the identity on digits
and every other code point; the strikethrough conversion appends the
combining code point U+0336 after every code point of the input.  A Lean
`String` is a sequence of Unicode scalar values, so the iteration is over
code points by construction, exactly as the JavaScript string spread
(which never splits surrogate pairs). -/
theorem unicode_conversion_maps (s : String) (a b d e : Char) :
    convertToBoldUnicode s = String.mk (s.data.map boldCharMap)
    ∧ convertToItalicUnicode s = String.mk (s.data.map italicCharMap)
    ∧ convertToStrikethrough s =
        String.join (s.data.map (fun ch => String.mk [ch, Char.ofNat 0x336]))
    ∧ (65 ≤ a.toNat → a.toNat ≤ 90 →
        boldCharMap a = Char.ofNat (a.toNat - 65 + 0x1D400) ∧
        italicCharMap a = Char.ofNat (a.toNat - 65 + 0x1D434))
    ∧ (97 ≤ b.toNat → b.toNat ≤ 122 →
        boldCharMap b = Char.ofNat (b.toNat - 97 + 0x1D41A) ∧
        italicCharMap b = Char.ofNat (b.toNat - 97 + 0x1D44E))
    ∧ (48 ≤ d.toNat → d.toNat ≤ 57 →
        boldCharMap d = Char.ofNat (d.toNat - 48 + 0x1D7CE) ∧ italicCharMap d = d)
    ∧ ((e.toNat < 48 ∨ 57 < e.toNat) → (e.toNat < 65 ∨ 90 < e.toNat) →
        (e.toNat < 97 ∨ 122 < e.toNat) →
        boldCharMap e = e ∧ italicCharMap e = e) := by
  refine ⟨rfl, rfl, rfl, ?_, ?_, ?_, ?_⟩
  · intro h1 h2
    constructor <;> simp [boldCharMap, italicCharMap, h1, h2]
  · intro h1 h2
    constructor <;>
      · simp only [boldCharMap, italicCharMap]
        rw [if_neg (by omega), if_pos (by omega)]
  · intro h1 h2
    constructor
    · simp only [boldCharMap]
      rw [if_neg (by omega), if_neg (by omega), if_pos (by omega)]
    · simp only [italicCharMap]
      rw [if_neg (by omega), if_neg (by omega)]
  · intro h1 h2 h3
    constructor
    · simp only [boldCharMap]
      rw [if_neg (by omega), if_neg (by omega), if_neg (by omega)]
    · simp only [italicCharMap]
      rw [if_neg (by omega), if_neg (by omega)]

/-- C6 witness: the maps evaluated at `A`, `z`, `7` and `!`, each
discharging the corresponding range hypotheses of the theorem. -/
theorem unicode_conversion_maps_witness :
    convertToBoldUnicode "Az7!" = String.mk ("Az7!".data.map boldCharMap) ∧
    boldCharMap 'A' = Char.ofNat ('A'.toNat - 65 + 0x1D400) ∧
    italicCharMap 'z' = Char.ofNat ('z'.toNat - 97 + 0x1D44E) ∧
    boldCharMap '7' = Char.ofNat ('7'.toNat - 48 + 0x1D7CE) ∧
    italicCharMap '7' = '7' ∧
    boldCharMap '!' = '!' ∧
    italicCharMap '!' = '!' := by
  have h := unicode_conversion_maps "Az7!" 'A' 'z' '7' '!'
  refine ⟨h.1, (h.2.2.2.1 (by decide) (by decide)).1,
    (h.2.2.2.2.1 (by decide) (by decide)).2,
    (h.2.2.2.2.2.1 (by decide) (by decide)).1,
    (h.2.2.2.2.2.1 (by decide) (by decide)).2,
    (h.2.2.2.2.2.2 (by decide) (by decide) (by decide)).1,
    (h.2.2.2.2.2.2 (by decide) (by decide) (by decide)).2⟩

/-- C7 counterexample: with headings enabled, a level-5 heading over the
text `T` renders as a space, the text and a newline — not as the plain
paragraph-like line `T` plus newline, because the space separating the
(empty) prefix from the text is emitted even when the prefix falls back to
the empty string. -/
theorem renderHeading_level5_space_counterexample :
    sampleCtx.settings.enableHeadings = true ∧
    renderHeading sampleCtx 5 [Token.text none "T"] = " T\n" ∧
    renderParagraph sampleCtx [Token.text none "T"] = "T\n" ∧
    renderHeading sampleCtx 5 [Token.text none "T"] ≠
      renderParagraph sampleCtx [Token.text none "T"] := by
  have h5 : renderHeading sampleCtx 5 [Token.text none "T"] = " T\n" := by
    simp [renderHeading, renderTokens, renderToken, renderText, headingPrefixFor,
      sampleCtx, sampleSettings]
  have hp : renderParagraph sampleCtx [Token.text none "T"] = "T\n" := by
    simp [renderParagraph, renderTokens, renderToken, renderText]
  refine ⟨rfl, h5, hp, ?_⟩
  rw [h5, hp]
  decide

/-- C7 (amended): with `enableHeadings` the renderer emits the level's
configured prefix for levels 1-4, then one separator space, the rendered
children and a newline; levels 5 and 6 (and any level without a configured
prefix) fall back to the empty prefix but the separator space is still
emitted, so the line equals the plain text line only after trimming; with
the toggle off the output is the rendered children plus newline, so one
trailing newline is appended regardless of the toggle. -/
theorem renderHeading_prefix_and_fallback (ctx : RenderContext) (depth d5 : Nat)
    (tokens : List Token) (h5 : 5 ≤ d5) :
    renderHeading ctx depth tokens =
      (if ctx.settings.enableHeadings then
        headingPrefixFor ctx.settings depth ++ " " ++ renderTokens ctx tokens ++ "\n"
      else renderTokens ctx tokens ++ "\n")
    ∧ headingPrefixFor ctx.settings 1 = ctx.settings.heading1Prefix
    ∧ headingPrefixFor ctx.settings 2 = ctx.settings.heading2Prefix
    ∧ headingPrefixFor ctx.settings 3 = ctx.settings.heading3Prefix
    ∧ headingPrefixFor ctx.settings 4 = ctx.settings.heading4Prefix
    ∧ headingPrefixFor ctx.settings d5 = ""
    ∧ renderToken ctx (Token.heading depth tokens) = renderHeading ctx depth tokens := by
  refine ⟨?_, rfl, rfl, rfl, rfl, ?_, by simp [renderToken]⟩
  · cases he : ctx.settings.enableHeadings <;> simp [renderHeading, he]
  · obtain ⟨k, rfl⟩ : ∃ k, d5 = k + 5 := ⟨d5 - 5, by omega⟩
    simp [headingPrefixFor]

/-- C7 witness: the amended heading behaviour instantiated at the concrete
context, depth 2 and fallback depth 5. -/
theorem renderHeading_prefix_and_fallback_witness :
    5 ≤ 5 ∧
    (renderHeading sampleCtx 2 [Token.text none "T"] =
      (if sampleCtx.settings.enableHeadings then
        headingPrefixFor sampleCtx.settings 2 ++ " " ++
          renderTokens sampleCtx [Token.text none "T"] ++ "\n"
      else renderTokens sampleCtx [Token.text none "T"] ++ "\n")
    ∧ headingPrefixFor sampleCtx.settings 1 = sampleCtx.settings.heading1Prefix
    ∧ headingPrefixFor sampleCtx.settings 2 = sampleCtx.settings.heading2Prefix
    ∧ headingPrefixFor sampleCtx.settings 3 = sampleCtx.settings.heading3Prefix
    ∧ headingPrefixFor sampleCtx.settings 4 = sampleCtx.settings.heading4Prefix
    ∧ headingPrefixFor sampleCtx.settings 5 = ""
    ∧ renderToken sampleCtx (Token.heading 2 [Token.text none "T"]) =
        renderHeading sampleCtx 2 [Token.text none "T"]) :=
  ⟨by decide, renderHeading_prefix_and_fallback sampleCtx 2 5 [Token.text none "T"]
    (by decide)⟩

/-- C8 counterexample: the replacement text backslash-backslash-`n` does
not unescape to a backslash followed by the letter `n`: the first
replacement pass (`\n` to newline) consumes the second backslash, so the
result is a backslash followed by a newline. -/
theorem unescapeString_double_backslash_counterexample :
    unescapeString "\\\\n" = "\\\n" ∧
    ("\\\n" : String) ≠ "\\n" ∧
    unescapeString "\\\\n" ≠ "\\n" := by
  refine ⟨by decide, by decide, by decide⟩

/-- C8 (amended): `unescapeString` is four sequential global replaces in
the order `\n`, `\t`, `\r`, `\\` — not a single pass: each of the four
two-character sequences alone unescapes to its control character, but in
`\\n` the earlier `\n` pass consumes the second backslash, producing
backslash-newline rather than backslash-`n`. -/
theorem unescapeString_sequential_replaces (str : String) :
    unescapeString str =
      replaceAll (replaceAll (replaceAll (replaceAll str "\\n" "\n") "\\t" "\t")
        "\\r" "\r") "\\\\" "\\"
    ∧ unescapeString "\\n" = "\n"
    ∧ unescapeString "\\t" = "\t"
    ∧ unescapeString "\\r" = "\r"
    ∧ unescapeString "\\\\" = "\\"
    ∧ unescapeString "\\\\n" = "\\" ++ "\n" := by
  exact ⟨rfl, by decide, by decide, by decide, by decide, by decide⟩

/-- C9: a blockquote with `enableBlockquote` splits the rendered children
on newline, prefixes every non-empty line with `blockquotePrefix`, and
lets every empty line pass through unprefixed; with the toggle off it
returns the rendered children unchanged. -/
theorem renderBlockquote_prefixes_nonempty_lines (ctx : RenderContext)
    (tokens : List Token) :
    renderBlockquote ctx tokens =
      (if ctx.settings.enableBlockquote then
        String.intercalate "\n"
          (((renderTokens ctx tokens).splitOn "\n").map
            (fun line => if line = "" then line else ctx.settings.blockquotePrefix ++ line))
      else renderTokens ctx tokens) := by
  cases hb : ctx.settings.enableBlockquote <;> simp [renderBlockquote, hb]

/-- C10: token-sequence rendering is a monoid homomorphism from token
sequences under append to strings under concatenation: the empty sequence
renders to the empty string and an appended sequence renders to the
concatenation of the renderings — each token's output is independent of
its neighbours. -/
theorem renderTokens_monoid_hom (ctx : RenderContext) (s t : List Token) :
    renderTokens ctx ([] : List Token) = "" ∧
    renderTokens ctx (s ++ t) = renderTokens ctx s ++ renderTokens ctx t := by
  refine ⟨by simp [renderTokens], ?_⟩
  induction s with
  | nil => simp [renderTokens]
  | cons a as ih => simp [renderTokens, ih, String.append_assoc]
